import Mathlib

/-!
Verification development for the typeorm-transactional repository.

The core of the repository is `src/decorators/transactional.ts`: a decorator
`Transactional(options)` that wraps a service method in a transaction boundary,
a per-DataSource `AsyncLocalStorage` registry (`transactionContexts` /
`getOrCreateTransactionContext`), an isolation negotiator
(`getSupportedIsolationLevel`), a free accessor lookup
(`getCurrentTransactionManager`) and a service base class
(`BaseTransactionalService` with `getManager` / `getRepository`).

Shallow embedding conventions:
* `DataSource` is modelled by an identity (`id`, standing for JavaScript
  reference identity used as the `WeakMap` key) plus the backend kind string
  `dbType` (the source reads `dataSource.options.type`).
* An `EntityManager` is either a DataSource's default manager
  (`dataSource.manager`) or a manager bound to one open backend transaction
  (the `manager` passed by `dataSource.transaction` to its callback).
* The per-DataSource `AsyncLocalStorage<TransactionContextData>` stores are
  modelled, for the single logical call chain an interpreter run represents,
  as an association list from `DataSource` to the currently visible
  `TransactionContextData`.  `AsyncLocalStorage.run(v, f)` sets the store to
  `v` for the dynamic extent of `f` and restores the previous value on every
  exit path; the interpreter saves the previous binding and writes it back
  after the body, mirroring that contract.
* `dataSource.transaction(isolation?, cb)` is the external TypeORM
  collaborator: it begins a backend transaction, runs `cb` with the
  transaction-bound manager, commits when `cb` resolves, rolls back and
  rethrows the identical error when `cb` rejects.  The interpreter records
  these backend events on a trace (`txBegin` / `txCommit` / `txRollback`)
  with a fresh transaction id drawn from a counter.
* Wrapped operation bodies are modelled by the inductive `Op`: return a
  value, fail with a business error, sequence two bodies, or invoke another
  `Transactional`-wrapped method (`txCall`).
-/

namespace TypeormTransactional

/-- The four isolation levels of the source's `IsolationLevel` union type. -/
inductive IsolationLevel where
  | readUncommitted
  | readCommitted
  | repeatableRead
  | serializable
deriving DecidableEq, Repr

/-- The source's propagation union type: REQUIRED or REQUIRES_NEW. -/
inductive Propagation where
  | REQUIRED
  | REQUIRES_NEW
deriving DecidableEq, Repr

/-- Options of the decorator, `TransactionalOptions` from the source: both fields optional
(`isolation?`, `propagation?`). -/
structure TransactionalOptions where
  isolation : Option IsolationLevel := none
  propagation : Option Propagation := none
deriving DecidableEq, Repr

/-- A TypeORM `DataSource`: `id` stands for reference identity (the `WeakMap`
key), `dbType` for `dataSource.options.type`. -/
structure DataSource where
  id : Nat
  dbType : String
deriving DecidableEq, Repr

/-- A TypeORM `EntityManager`: either a DataSource's default manager
(`dataSource.manager`) or the manager bound to open backend transaction
`txId` on `ds`. -/
inductive EntityManager where
  | defaultManager (ds : DataSource)
  | txManager (txId : Nat) (ds : DataSource)
deriving DecidableEq, Repr

/-- The source's `TransactionContextData`: the value stored in a
DataSource's `AsyncLocalStorage`. -/
structure TransactionContextData where
  manager : EntityManager
  dataSource : DataSource
deriving DecidableEq, Repr

/-- A service instance carrying the decorated method: `dataSource` is the
`(this as any).dataSource` property (absent when the service is miswired),
`className` is `target.constructor.name`. -/
structure Service where
  dataSource : Option DataSource
  className : String
deriving DecidableEq, Repr

/-- Backend transaction events performed by `dataSource.transaction`. -/
inductive Event where
  | txBegin (txId : Nat) (ds : DataSource) (isolation : Option IsolationLevel)
  | txCommit (txId : Nat)
  | txRollback (txId : Nat)
deriving DecidableEq, Repr

/-- Errors observable from a wrapped call: the configuration `Error` thrown
when the `dataSource` property is missing, or a business error thrown by the
wrapped operation. -/
inductive Err where
  | configError (message : String)
  | opError (code : Nat)
deriving DecidableEq, Repr

/-- The negotiator `getSupportedIsolationLevel(dataSource, requestedLevel)` from the
source, translated clause by clause. -/
def getSupportedIsolationLevel (dataSource : DataSource)
    (requestedLevel : Option IsolationLevel) : Option IsolationLevel :=
  match requestedLevel with
  | none => none
  | some requested =>
    let dbType := dataSource.dbType
    if dbType = "sqlite" then
      if requested = .readUncommitted ∨ requested = .serializable then
        some requested
      else
        some .serializable
    else
      some requested

/-- Strength order of isolation levels (READ UNCOMMITTED weakest,
SERIALIZABLE strongest), used to state that the negotiator never weakens a
request. -/
def isolationStrength : IsolationLevel → Nat
  | .readUncommitted => 0
  | .readCommitted => 1
  | .repeatableRead => 2
  | .serializable => 3

/-- Lookup in the per-DataSource context registry: the currently visible
`TransactionContextData` for a DataSource (`context.getStore()` after
`getOrCreateTransactionContext`), `none` when no frame is active. -/
def lookupCtx : List (DataSource × TransactionContextData) → DataSource →
    Option TransactionContextData
  | [], _ => none
  | (k, v) :: rest, ds => if k = ds then some v else lookupCtx rest ds

/-- Remove a DataSource's binding from the registry. -/
def eraseCtx : List (DataSource × TransactionContextData) → DataSource →
    List (DataSource × TransactionContextData)
  | [], _ => []
  | (k, v) :: rest, ds =>
    if k = ds then eraseCtx rest ds else (k, v) :: eraseCtx rest ds

/-- Set (or clear) the currently visible store value for one DataSource.
`AsyncLocalStorage.run` performs the `some` direction on entry and restores
the saved previous value (possibly `none`) on exit. -/
def setCtx (l : List (DataSource × TransactionContextData)) (ds : DataSource) :
    Option TransactionContextData → List (DataSource × TransactionContextData)
  | none => eraseCtx l ds
  | some v => (ds, v) :: eraseCtx l ds

/-- The interpreter state: the visible `AsyncLocalStorage` bindings of the
current logical call chain, the trace of backend transaction events, and the
next fresh backend transaction id. -/
structure EngineState where
  contexts : List (DataSource × TransactionContextData)
  trace : List Event
  nextTx : Nat
deriving DecidableEq, Repr

/-- The configuration error message thrown by the wrapper, built from
`target.constructor.name`. -/
def missingDataSourceMessage (className : String) : String :=
  "DataSource not found in " ++ className ++
    ". Make sure your service has a \x27dataSource\x27 property."

/-- A wrapped operation body: return a value, fail with a business error,
sequence two bodies, or invoke another `Transactional`-wrapped method. -/
inductive Op where
  | ret (v : Nat)
  | opFail (e : Nat)
  | seq (a b : Op)
  | txCall (svc : Service) (opts : TransactionalOptions) (body : Op)
deriving Repr

/-- The state at the start of `executeTransaction`: `dataSource.transaction`
has begun backend transaction `s.nextTx` at the negotiated isolation level
and `context.run(contextData, ...)` has made
`{ manager, dataSource }` the visible store value for `ds`. -/
def startState (s : EngineState) (ds : DataSource)
    (isolation : Option IsolationLevel) : EngineState :=
  { contexts := setCtx s.contexts ds
      (some ⟨.txManager s.nextTx ds, ds⟩),
    trace := s.trace ++
      [.txBegin s.nextTx ds (getSupportedIsolationLevel ds isolation)],
    nextTx := s.nextTx + 1 }

/-- The end of `dataSource.transaction`: `context.run` has restored the
saved previous store value for `ds`, and the backend commits when the
callback succeeded, rolls back and rethrows the identical error when it
failed. -/
def commitOrRollback (txId : Nat) (saved : Option TransactionContextData)
    (ds : DataSource) :
    Except Err Nat × EngineState → Except Err Nat × EngineState
  | (.ok v, s₂) =>
    (.ok v, { s₂ with contexts := setCtx s₂.contexts ds saved,
                      trace := s₂.trace ++ [.txCommit txId] })
  | (.error e, s₂) =>
    (.error e, { s₂ with contexts := setCtx s₂.contexts ds saved,
                         trace := s₂.trace ++ [.txRollback txId] })

/-- The interpreter.  The `txCall` case is the wrapper installed by
`Transactional(options)`:
1. read `this.dataSource`; if absent, throw the configuration error at once;
2. `existingContext = getOrCreateTransactionContext(dataSource).getStore()`;
3. if a context exists and `options.propagation !== REQUIRES_NEW`, join:
   invoke the original method directly;
4. otherwise negotiate the isolation level and run the body inside
   `dataSource.transaction` with the context set for its dynamic extent. -/
def run : Op → EngineState → Except Err Nat × EngineState
  | .ret v, s => (.ok v, s)
  | .opFail e, s => (.error (.opError e), s)
  | .seq a b, s =>
    match run a s with
    | (.ok _, s₁) => run b s₁
    | (.error e, s₁) => (.error e, s₁)
  | .txCall svc opts body, s =>
    match svc.dataSource with
    | none =>
      (.error (.configError (missingDataSourceMessage svc.className)), s)
    | some ds =>
      let existingContext := lookupCtx s.contexts ds
      if existingContext.isSome ∧ opts.propagation ≠ some .REQUIRES_NEW then
        run body s
      else
        commitOrRollback s.nextTx existingContext ds
          (run body (startState s ds opts.isolation))

/-- The free function `getCurrentTransactionManager(dataSource?)` from the source: `null` when
no DataSource is passed, else the manager of the currently visible context
data, or `null` when none. -/
def getCurrentTransactionManager (dataSource : Option DataSource)
    (s : EngineState) : Option EntityManager :=
  match dataSource with
  | none => none
  | some ds => (lookupCtx s.contexts ds).map (fun c => c.manager)

/-- The accessor resolver `BaseTransactionalService.getManager`: the current transaction manager
when one is active for the service's DataSource, else
`this.dataSource.manager`. -/
def getManager (ds : DataSource) (s : EngineState) : EntityManager :=
  match getCurrentTransactionManager (some ds) s with
  | some m => m
  | none => .defaultManager ds

/-- A TypeORM repository for an entity kind, as produced by
`manager.getRepository(entity)`: bound to the manager that produced it. -/
structure Repository where
  manager : EntityManager
  entity : Nat
deriving DecidableEq, Repr

/-- The repository accessor `BaseTransactionalService.getRepository`:
`this.getManager().getRepository(entity)`. -/
def getRepository (ds : DataSource) (s : EngineState) (entity : Nat) :
    Repository :=
  ⟨getManager ds s, entity⟩

/-- A chain of `N` nested `Transactional`-wrapped calls: each list entry is
one wrapped method (its service and its options) whose body is the rest of
the chain; the innermost body returns 0. -/
def nestChain : List (Service × TransactionalOptions) → Op
  | [] => .ret 0
  | p :: rest => .txCall p.1 p.2 (nestChain rest)

/-- Registry well-formedness: every stored context datum records the
DataSource under whose key it is stored.  The wrapper only ever stores
`{ manager, dataSource }` in `dataSource`'s own store, so every reachable
registry satisfies this. -/
def WellKeyed (l : List (DataSource × TransactionContextData)) : Prop :=
  ∀ p ∈ l, p.2.dataSource = p.1

theorem lookupCtx_eraseCtx_self (l : List (DataSource × TransactionContextData))
    (ds : DataSource) : lookupCtx (eraseCtx l ds) ds = none := by
  induction l with
  | nil => rfl
  | cons p rest ih =>
    obtain ⟨k, v⟩ := p
    by_cases hk : k = ds
    · simpa [eraseCtx, hk] using ih
    · simpa [eraseCtx, lookupCtx, hk] using ih

theorem lookupCtx_eraseCtx_other (l : List (DataSource × TransactionContextData))
    (ds ds' : DataSource) (h : ds ≠ ds') :
    lookupCtx (eraseCtx l ds) ds' = lookupCtx l ds' := by
  induction l with
  | nil => rfl
  | cons p rest ih =>
    obtain ⟨k, v⟩ := p
    by_cases hk : k = ds
    · subst hk
      simp [eraseCtx, lookupCtx, h, ih]
    · simp [eraseCtx, lookupCtx, hk, ih]

theorem lookupCtx_setCtx_self (l : List (DataSource × TransactionContextData))
    (ds : DataSource) (v : Option TransactionContextData) :
    lookupCtx (setCtx l ds v) ds = v := by
  cases v with
  | none => simpa [setCtx] using lookupCtx_eraseCtx_self l ds
  | some c => simp [setCtx, lookupCtx]

theorem lookupCtx_setCtx_other (l : List (DataSource × TransactionContextData))
    (ds ds' : DataSource) (v : Option TransactionContextData) (h : ds ≠ ds') :
    lookupCtx (setCtx l ds v) ds' = lookupCtx l ds' := by
  cases v with
  | none => simpa [setCtx] using lookupCtx_eraseCtx_other l ds ds' h
  | some c => simp [setCtx, lookupCtx, h, lookupCtx_eraseCtx_other l ds ds' h]

/-- The join path of the wrapper: with a context present for the service's
DataSource and propagation other than REQUIRES_NEW, the wrapped call is the
original method invoked directly — same result, same state, no new frame,
no backend transaction event. -/
theorem run_txCall_join (svc : Service) (opts : TransactionalOptions)
    (body : Op) (s : EngineState) (ds : DataSource)
    (h1 : svc.dataSource = some ds)
    (h2 : (lookupCtx s.contexts ds).isSome)
    (h3 : opts.propagation ≠ some .REQUIRES_NEW) :
    run (.txCall svc opts body) s = run body s := by
  simp only [run, h1]
  rw [if_pos ⟨h2, h3⟩]

/-- The start-new path of the wrapper: with no context present for the
service's DataSource, or propagation REQUIRES_NEW, the wrapped call begins
a fresh backend transaction, runs the body with the fresh frame visible, and
finishes with commit or rollback and the saved previous frame restored. -/
theorem run_txCall_startNew (svc : Service) (opts : TransactionalOptions)
    (body : Op) (s : EngineState) (ds : DataSource)
    (h1 : svc.dataSource = some ds)
    (h2 : ¬((lookupCtx s.contexts ds).isSome ∧
        opts.propagation ≠ some .REQUIRES_NEW)) :
    run (.txCall svc opts body) s =
      commitOrRollback s.nextTx (lookupCtx s.contexts ds) ds
        (run body (startState s ds opts.isolation)) := by
  simp only [run, h1]
  rw [if_neg h2]

/-- A chain of nested joined calls is transparent: with a frame active for
`ds` and every link bound to `ds` with propagation other than REQUIRES_NEW,
the whole chain returns 0 and leaves the state untouched. -/
theorem run_nestChain_join (l : List (Service × TransactionalOptions))
    (ds : DataSource) (s : EngineState)
    (hall : ∀ p ∈ l, (p.1).dataSource = some ds ∧
        (p.2).propagation ≠ some Propagation.REQUIRES_NEW)
    (hs : (lookupCtx s.contexts ds).isSome) :
    run (nestChain l) s = (.ok 0, s) := by
  induction l with
  | nil => rfl
  | cons p rest ih =>
    obtain ⟨hds, hprop⟩ := hall p (List.mem_cons_self p rest)
    rw [nestChain, run_txCall_join p.1 p.2 (nestChain rest) s ds hds hs hprop]
    exact ih fun q hq => hall q (List.mem_cons_of_mem p hq)

theorem mem_eraseCtx (l : List (DataSource × TransactionContextData))
    (ds : DataSource) (p : DataSource × TransactionContextData)
    (h : p ∈ eraseCtx l ds) : p ∈ l := by
  induction l with
  | nil => simp [eraseCtx] at h
  | cons q rest ih =>
    obtain ⟨k, v⟩ := q
    by_cases hk : k = ds
    · simp only [eraseCtx, if_pos hk] at h
      exact List.mem_cons_of_mem _ (ih h)
    · simp only [eraseCtx, if_neg hk, List.mem_cons] at h
      rcases h with h | h
      · exact h ▸ List.mem_cons_self _ _
      · exact List.mem_cons_of_mem _ (ih h)

theorem wellKeyed_eraseCtx (l : List (DataSource × TransactionContextData))
    (ds : DataSource) (hW : WellKeyed l) : WellKeyed (eraseCtx l ds) :=
  fun p hp => hW p (mem_eraseCtx l ds p hp)

theorem wellKeyed_setCtx (l : List (DataSource × TransactionContextData))
    (ds : DataSource) (v : Option TransactionContextData)
    (hW : WellKeyed l) (hv : ∀ c, v = some c → c.dataSource = ds) :
    WellKeyed (setCtx l ds v) := by
  cases v with
  | none => exact wellKeyed_eraseCtx l ds hW
  | some c =>
    intro p hp
    simp only [setCtx, List.mem_cons] at hp
    rcases hp with hp | hp
    · subst hp
      exact hv c rfl
    · exact hW p (mem_eraseCtx l ds p hp)

theorem wellKeyed_lookupCtx (l : List (DataSource × TransactionContextData))
    (ds : DataSource) (c : TransactionContextData) (hW : WellKeyed l)
    (h : lookupCtx l ds = some c) : c.dataSource = ds := by
  induction l with
  | nil => simp [lookupCtx] at h
  | cons q rest ih =>
    obtain ⟨k, v⟩ := q
    by_cases hk : k = ds
    · simp only [lookupCtx, if_pos hk, Option.some.injEq] at h
      exact h ▸ hk ▸ hW (k, v) (List.mem_cons_self _ _)
    · simp only [lookupCtx, if_neg hk] at h
      exact ih (fun p hp => hW p (List.mem_cons_of_mem _ hp)) h

/-- Every run of the interpreter preserves registry well-formedness: the
wrapper only ever activates a frame recording its own DataSource, and
restores a value previously read from that DataSource's store. -/
theorem run_preserves_wellKeyed (op : Op) :
    ∀ s : EngineState, WellKeyed s.contexts →
      WellKeyed (run op s).2.contexts := by
  induction op with
  | ret v => intro s hW; exact hW
  | opFail e => intro s hW; exact hW
  | seq a b iha ihb =>
    intro s hW
    simp only [run]
    rcases hra : run a s with ⟨ra, s₁⟩
    have h₁ : WellKeyed s₁.contexts := by
      have := iha s hW
      rwa [hra] at this
    cases ra with
    | ok v => exact ihb s₁ h₁
    | error e => exact h₁
  | txCall svc opts body ih =>
    intro s hW
    rcases hds : svc.dataSource with _ | ds
    · simp only [run, hds]
      exact hW
    · by_cases hjoin : (lookupCtx s.contexts ds).isSome ∧
          opts.propagation ≠ some Propagation.REQUIRES_NEW
      · rw [run_txCall_join svc opts body s ds hds hjoin.1 hjoin.2]
        exact ih s hW
      · rw [run_txCall_startNew svc opts body s ds hds hjoin]
        have hstart : WellKeyed (startState s ds opts.isolation).contexts := by
          exact wellKeyed_setCtx s.contexts ds
            (some ⟨.txManager s.nextTx ds, ds⟩) hW
            (fun c hc => by
              injection hc with h
              rw [← h])
        have hbody := ih (startState s ds opts.isolation) hstart
        rcases hrb : run body (startState s ds opts.isolation) with ⟨rb, s₂⟩
        have h₂ : WellKeyed s₂.contexts := by rwa [hrb] at hbody
        have hsaved : ∀ c, lookupCtx s.contexts ds = some c →
            c.dataSource = ds :=
          fun c hc => wellKeyed_lookupCtx s.contexts ds c hW hc
        cases rb with
        | ok v =>
          exact wellKeyed_setCtx s₂.contexts ds _ h₂ hsaved
        | error e =>
          exact wellKeyed_setCtx s₂.contexts ds _ h₂ hsaved

/-- Claim C3: for every DataSource and requested isolation level,
`getSupportedIsolationLevel` returns none when no level is requested; the
requested level unchanged when the backend is not sqlite; for sqlite the
requested level unchanged if it is READ UNCOMMITTED or SERIALIZABLE and
SERIALIZABLE for any other requested level.  It is total (never raises) and
never returns a level weaker than the one requested. -/
theorem getSupportedIsolationLevel_spec (ds : DataSource)
    (req : IsolationLevel) :
    getSupportedIsolationLevel ds none = none
    ∧ (ds.dbType ≠ "sqlite" →
        getSupportedIsolationLevel ds (some req) = some req)
    ∧ (ds.dbType = "sqlite" →
        (req = .readUncommitted ∨ req = .serializable →
          getSupportedIsolationLevel ds (some req) = some req)
        ∧ (req ≠ .readUncommitted → req ≠ .serializable →
          getSupportedIsolationLevel ds (some req) = some .serializable))
    ∧ ∃ eff, getSupportedIsolationLevel ds (some req) = some eff ∧
        isolationStrength req ≤ isolationStrength eff := by
  by_cases h : ds.dbType = "sqlite" <;>
    cases req <;>
      simp [getSupportedIsolationLevel, isolationStrength, h]

/-- Witness for C3: on a sqlite DataSource, requesting READ COMMITTED
falls back to SERIALIZABLE. -/
theorem getSupportedIsolationLevel_spec_witness :
    getSupportedIsolationLevel ⟨0, "sqlite"⟩ (some .readCommitted)
      = some .serializable :=
  ((getSupportedIsolationLevel_spec ⟨0, "sqlite"⟩ .readCommitted).2.2.1
      rfl).2 (by decide) (by decide)

/-- Claim C10: the free function `getCurrentTransactionManager` with no DataSource argument returns
null for every state — without raising and without consulting any context
store, even when transactions are active on some DataSource. -/
theorem getCurrentTransactionManager_none (s : EngineState) :
    getCurrentTransactionManager none s = none := rfl

/-- Claim C9: invoking a wrapped method on a service whose `dataSource` property
is absent raises the configuration error immediately: the returned state is
the input state unchanged (so no context store was created or consulted, no
transaction begun, the body never executed), and the message names the
service class. -/
theorem txCall_missing_dataSource (svc : Service)
    (opts : TransactionalOptions) (body : Op) (s : EngineState)
    (h : svc.dataSource = none) :
    run (.txCall svc opts body) s
      = (.error (.configError ("DataSource not found in " ++ svc.className ++
          ". Make sure your service has a \x27dataSource\x27 property.")),
         s) := by
  simp [run, h, missingDataSourceMessage]

/-- Witness for C9: a service named UserService without a DataSource. -/
theorem txCall_missing_dataSource_witness :
    run (.txCall ⟨none, "UserService"⟩ {} (.ret 5))
        ⟨[], [], 0⟩
      = (.error (.configError ("DataSource not found in UserService" ++
          ". Make sure your service has a \x27dataSource\x27 property.")),
         ⟨[], [], 0⟩) := by
  have := txCall_missing_dataSource ⟨none, "UserService"⟩ {} (.ret 5)
    ⟨[], [], 0⟩ rfl
  simpa using this

/-- Claim C6: for distinct DataSources A and B, activity on A's context store is
never visible when resolving through B: writing (or clearing) A's store
binding — as frame activation and restore do — changes neither B's stored
context nor `getCurrentTransactionManager` for B, and the state in which a
new frame is activated for A still resolves B exactly as before. -/
theorem multi_resource_independence (A B : DataSource) (s : EngineState)
    (v : Option TransactionContextData) (iso : Option IsolationLevel)
    (h : A ≠ B) :
    lookupCtx (setCtx s.contexts A v) B = lookupCtx s.contexts B
    ∧ getCurrentTransactionManager (some B)
        { s with contexts := setCtx s.contexts A v }
      = getCurrentTransactionManager (some B) s
    ∧ getCurrentTransactionManager (some B) (startState s A iso)
      = getCurrentTransactionManager (some B) s := by
  have hl := lookupCtx_setCtx_other s.contexts A B v h
  have hl2 := lookupCtx_setCtx_other s.contexts A B
    (some ⟨.txManager s.nextTx A, A⟩) h
  exact ⟨hl, by simp [getCurrentTransactionManager, hl],
    by simp [getCurrentTransactionManager, startState, hl2]⟩

/-- Witness for C6: two distinct DataSources; activating a frame for the
first leaves the second's resolution at none. -/
theorem multi_resource_independence_witness :
    getCurrentTransactionManager (some ⟨1, "mysql"⟩)
        (startState ⟨[], [], 0⟩ ⟨0, "postgres"⟩ none)
      = getCurrentTransactionManager (some ⟨1, "mysql"⟩)
        (⟨[], [], 0⟩ : EngineState) :=
  (multi_resource_independence ⟨0, "postgres"⟩ ⟨1, "mysql"⟩ ⟨[], [], 0⟩
    none none (by decide)).2.2

/-- Claim C7: the resolver `getManager` resolves to the active frame's transaction-bound
manager when a frame is active for the service's DataSource and to the
DataSource's default manager otherwise; it is a total pure lookup (a plain
function of the state that always returns a manager), and `getRepository`
is built from exactly that manager. -/
theorem getManager_resolution (ds : DataSource) (s : EngineState) (e : Nat) :
    (∀ c, lookupCtx s.contexts ds = some c → getManager ds s = c.manager)
    ∧ (lookupCtx s.contexts ds = none →
        getManager ds s = .defaultManager ds)
    ∧ getRepository ds s e = ⟨getManager ds s, e⟩ := by
  refine ⟨?_, ?_, rfl⟩
  · intro c hc
    simp [getManager, getCurrentTransactionManager, hc]
  · intro hc
    simp [getManager, getCurrentTransactionManager, hc]

/-- Witness for C7: with an active frame the transaction-bound manager is
returned; with no frame the default manager is returned. -/
theorem getManager_resolution_witness :
    getManager ⟨0, "postgres"⟩
        ⟨[(⟨0, "postgres"⟩, ⟨.txManager 7 ⟨0, "postgres"⟩, ⟨0, "postgres"⟩⟩)],
         [], 8⟩
      = .txManager 7 ⟨0, "postgres"⟩
    ∧ getManager ⟨0, "postgres"⟩ ⟨[], [], 0⟩
      = .defaultManager ⟨0, "postgres"⟩ :=
  ⟨(getManager_resolution ⟨0, "postgres"⟩
      ⟨[(⟨0, "postgres"⟩, ⟨.txManager 7 ⟨0, "postgres"⟩, ⟨0, "postgres"⟩⟩)],
       [], 8⟩ 0).1 ⟨.txManager 7 ⟨0, "postgres"⟩, ⟨0, "postgres"⟩⟩ (by rfl),
   (getManager_resolution ⟨0, "postgres"⟩ ⟨[], [], 0⟩ 0).2.1 (by rfl)⟩

/-- The start-new condition: no context present for the DataSource, or
propagation REQUIRES_NEW, negates the source's join test. -/
theorem startNew_cond (s : EngineState) (ds : DataSource)
    (opts : TransactionalOptions)
    (hstart : lookupCtx s.contexts ds = none ∨
        opts.propagation = some Propagation.REQUIRES_NEW) :
    ¬((lookupCtx s.contexts ds).isSome ∧
        opts.propagation ≠ some Propagation.REQUIRES_NEW) := by
  rcases hstart with h | h
  · intro hx
    rw [h] at hx
    exact absurd hx.1 (by simp)
  · intro hx
    exact hx.2 h

/-- Claim C1: a start-new invocation (no frame active for its DataSource, or
propagation REQUIRES_NEW) whose body is a chain of N nested joined calls on
the same DataSource that all complete successfully performs exactly one
backend begin/commit pair in total, regardless of N; and each joined nested
chain performs zero transaction opens or closes — run with any active frame
it returns leaving the state (trace included) untouched. -/
theorem join_correctness (svc : Service) (opts : TransactionalOptions)
    (chain : List (Service × TransactionalOptions)) (ds : DataSource)
    (s : EngineState)
    (h1 : svc.dataSource = some ds)
    (hstart : lookupCtx s.contexts ds = none ∨
        opts.propagation = some Propagation.REQUIRES_NEW)
    (hchain : ∀ p ∈ chain, (p.1).dataSource = some ds ∧
        (p.2).propagation ≠ some Propagation.REQUIRES_NEW) :
    (run (.txCall svc opts (nestChain chain)) s).1 = .ok 0
    ∧ (run (.txCall svc opts (nestChain chain)) s).2.trace
        = s.trace ++
          [.txBegin s.nextTx ds (getSupportedIsolationLevel ds opts.isolation),
           .txCommit s.nextTx]
    ∧ ∀ s₁ : EngineState, (lookupCtx s₁.contexts ds).isSome →
        run (nestChain chain) s₁ = (.ok 0, s₁) := by
  have hns := startNew_cond s ds opts hstart
  have hactive :
      (lookupCtx (startState s ds opts.isolation).contexts ds).isSome := by
    simp [startState, lookupCtx_setCtx_self]
  have hrun := run_nestChain_join chain ds (startState s ds opts.isolation)
    hchain hactive
  refine ⟨?_, ?_, fun s₁ hs₁ => run_nestChain_join chain ds s₁ hchain hs₁⟩
  · rw [run_txCall_startNew svc opts (nestChain chain) s ds h1 hns, hrun]
    rfl
  · rw [run_txCall_startNew svc opts (nestChain chain) s ds h1 hns, hrun]
    simp [commitOrRollback, startState]

/-- Witness for C1: a signup call with two nested joined calls on the same
DataSource produces exactly one begin/commit pair. -/
theorem join_correctness_witness :
    (run (.txCall ⟨some ⟨0, "postgres"⟩, "SignupService"⟩ {}
        (nestChain [(⟨some ⟨0, "postgres"⟩, "OrgService"⟩, {}),
                    (⟨some ⟨0, "postgres"⟩, "UserService"⟩, {})]))
       ⟨[], [], 0⟩).2.trace
      = [.txBegin 0 ⟨0, "postgres"⟩ none, .txCommit 0] := by
  have h := join_correctness ⟨some ⟨0, "postgres"⟩, "SignupService"⟩ {}
    [(⟨some ⟨0, "postgres"⟩, "OrgService"⟩, {}),
     (⟨some ⟨0, "postgres"⟩, "UserService"⟩, {})] ⟨0, "postgres"⟩
    ⟨[], [], 0⟩ rfl (Or.inl rfl) (by decide)
  simpa using h.2.1

/-- Claim C2: a start-new invocation whose body fails with any error rolls back
the backend transaction that this invocation opened and rethrows the
identical error, with no substitution and no retry; and a joined call is
the original method invoked directly — it never itself begins, commits or
rolls back a transaction, so its error propagates unchanged to the
enclosing start-new activation. -/
theorem error_rollback_rethrow (svc : Service) (opts : TransactionalOptions)
    (body : Op) (s s₂ : EngineState) (err : Err) (ds : DataSource)
    (h1 : svc.dataSource = some ds)
    (hstart : lookupCtx s.contexts ds = none ∨
        opts.propagation = some Propagation.REQUIRES_NEW)
    (hb : run body (startState s ds opts.isolation) = (.error err, s₂)) :
    run (.txCall svc opts body) s
      = (.error err,
         { s₂ with
             contexts := setCtx s₂.contexts ds (lookupCtx s.contexts ds),
             trace := s₂.trace ++ [.txRollback s.nextTx] })
    ∧ ∀ (svc₂ : Service) (opts₂ : TransactionalOptions) (body₂ : Op)
        (s₁ : EngineState) (ds₂ : DataSource),
        svc₂.dataSource = some ds₂ →
        (lookupCtx s₁.contexts ds₂).isSome →
        opts₂.propagation ≠ some Propagation.REQUIRES_NEW →
        run (.txCall svc₂ opts₂ body₂) s₁ = run body₂ s₁ := by
  refine ⟨?_, fun svc₂ opts₂ body₂ s₁ ds₂ h₁ h₂ h₃ =>
    run_txCall_join svc₂ opts₂ body₂ s₁ ds₂ h₁ h₂ h₃⟩
  rw [run_txCall_startNew svc opts body s ds h1
    (startNew_cond s ds opts hstart), hb]
  rfl

/-- Witness for C2: a failing body under a fresh transaction yields
exactly one begin/rollback pair and the same business error. -/
theorem error_rollback_rethrow_witness :
    run (.txCall ⟨some ⟨0, "postgres"⟩, "SignupService"⟩ {} (.opFail 3))
        ⟨[], [], 0⟩
      = (.error (.opError 3),
         ⟨[], [.txBegin 0 ⟨0, "postgres"⟩ none, .txRollback 0], 1⟩) := by
  have h := (error_rollback_rethrow ⟨some ⟨0, "postgres"⟩, "SignupService"⟩
    {} (.opFail 3) ⟨[], [], 0⟩
    (startState ⟨[], [], 0⟩ ⟨0, "postgres"⟩ none) (.opError 3)
    ⟨0, "postgres"⟩ rfl (Or.inl rfl) rfl).1
  simpa [startState, setCtx, eraseCtx, lookupCtx] using h

/-- Claim C4: with a well-keyed registry, a wrapped invocation joins — the
original method invoked directly, no new frame, no transaction — exactly
when a frame is active for the service's DataSource (that frame then
necessarily records the service's DataSource as its resource) and
propagation is not REQUIRES_NEW; in every other case it starts a new
transaction: begin event, fresh frame for the body, commit-or-rollback
finish with the saved context restored. -/
theorem join_exactly_when (svc : Service) (opts : TransactionalOptions)
    (body : Op) (s : EngineState) (ds : DataSource)
    (hW : WellKeyed s.contexts) (h1 : svc.dataSource = some ds) :
    (∀ c, lookupCtx s.contexts ds = some c → c.dataSource = ds)
    ∧ ((lookupCtx s.contexts ds).isSome ∧
          opts.propagation ≠ some Propagation.REQUIRES_NEW →
        run (.txCall svc opts body) s = run body s)
    ∧ (¬((lookupCtx s.contexts ds).isSome ∧
          opts.propagation ≠ some Propagation.REQUIRES_NEW) →
        run (.txCall svc opts body) s
          = commitOrRollback s.nextTx (lookupCtx s.contexts ds) ds
              (run body (startState s ds opts.isolation))) :=
  ⟨fun c hc => wellKeyed_lookupCtx s.contexts ds c hW hc,
   fun h => run_txCall_join svc opts body s ds h1 h.1 h.2,
   fun h => run_txCall_startNew svc opts body s ds h1 h⟩

/-- Witness for C4: with a frame active and default propagation the wrapped
call is exactly the direct invocation of the body. -/
theorem join_exactly_when_witness :
    run (.txCall ⟨some ⟨0, "postgres"⟩, "UserService"⟩ {} (.ret 1))
        ⟨[(⟨0, "postgres"⟩,
            ⟨.txManager 0 ⟨0, "postgres"⟩, ⟨0, "postgres"⟩⟩)], [], 1⟩
      = run (.ret 1)
        ⟨[(⟨0, "postgres"⟩,
            ⟨.txManager 0 ⟨0, "postgres"⟩, ⟨0, "postgres"⟩⟩)], [], 1⟩ :=
  (join_exactly_when ⟨some ⟨0, "postgres"⟩, "UserService"⟩ {} (.ret 1)
    ⟨[(⟨0, "postgres"⟩,
        ⟨.txManager 0 ⟨0, "postgres"⟩, ⟨0, "postgres"⟩⟩)], [], 1⟩
    ⟨0, "postgres"⟩ (fun p hp => by fin_cases hp; rfl) rfl).2.1 (by decide)

/-- Claim C5: a REQUIRES_NEW invocation under an active outer frame runs its
body with a fresh frame bound to the newly begun backend transaction, and
on every exit path — commit after success or rollback after an error — the
outer activation afterwards observes its previous frame exactly as it
was. -/
theorem requires_new_restores_outer (svc : Service)
    (opts : TransactionalOptions) (body : Op) (s : EngineState)
    (ds : DataSource) (c : TransactionContextData)
    (h1 : svc.dataSource = some ds)
    (hc : lookupCtx s.contexts ds = some c)
    (hprop : opts.propagation = some Propagation.REQUIRES_NEW) :
    lookupCtx (startState s ds opts.isolation).contexts ds
      = some ⟨.txManager s.nextTx ds, ds⟩
    ∧ run (.txCall svc opts body) s
      = commitOrRollback s.nextTx (some c) ds
          (run body (startState s ds opts.isolation))
    ∧ ∀ r : Except Err Nat × EngineState,
        lookupCtx (commitOrRollback s.nextTx (some c) ds r).2.contexts ds
          = some c := by
  refine ⟨?_, ?_, ?_⟩
  · show lookupCtx
        (setCtx s.contexts ds (some ⟨.txManager s.nextTx ds, ds⟩)) ds
      = some ⟨.txManager s.nextTx ds, ds⟩
    exact lookupCtx_setCtx_self s.contexts ds
      (some ⟨.txManager s.nextTx ds, ds⟩)
  · have h := run_txCall_startNew svc opts body s ds h1
      (fun hx => hx.2 hprop)
    rwa [hc] at h
  · intro r
    rcases r with ⟨res, s₂⟩
    cases res <;> simp [commitOrRollback, lookupCtx_setCtx_self]

/-- Witness for C5: a nested REQUIRES_NEW call under an open outer frame
equals the start-new computation with the outer frame saved; afterwards the
outer frame is restored. -/
theorem requires_new_restores_outer_witness :
    run (.txCall ⟨some ⟨0, "postgres"⟩, "AuditService"⟩
          ⟨none, some .REQUIRES_NEW⟩ (.ret 2))
        ⟨[(⟨0, "postgres"⟩,
            ⟨.txManager 0 ⟨0, "postgres"⟩, ⟨0, "postgres"⟩⟩)], [], 1⟩
      = commitOrRollback 1
          (some ⟨.txManager 0 ⟨0, "postgres"⟩, ⟨0, "postgres"⟩⟩)
          ⟨0, "postgres"⟩
          (run (.ret 2)
            (startState
              ⟨[(⟨0, "postgres"⟩,
                  ⟨.txManager 0 ⟨0, "postgres"⟩, ⟨0, "postgres"⟩⟩)], [], 1⟩
              ⟨0, "postgres"⟩ none)) :=
  (requires_new_restores_outer ⟨some ⟨0, "postgres"⟩, "AuditService"⟩
    ⟨none, some .REQUIRES_NEW⟩ (.ret 2)
    ⟨[(⟨0, "postgres"⟩,
        ⟨.txManager 0 ⟨0, "postgres"⟩, ⟨0, "postgres"⟩⟩)], [], 1⟩
    ⟨0, "postgres"⟩ ⟨.txManager 0 ⟨0, "postgres"⟩, ⟨0, "postgres"⟩⟩
    rfl (by decide) rfl).2.1

end TypeormTransactional
